import Mathlib

/-!
Verification of the RITCH streaming decode engine (src/MessageTypes.cpp and
src/getMessages.cpp) against its specification.

Byte buffers are modelled as functions `Nat → Nat`; a valid buffer holds
values below 256 at every used position.  Machine integers become `Nat`
(all the relevant C++ values are unsigned); the IEEE-double prices become
`ℚ`, where `raw / 10000.0` is the exact rational `raw / 10000`.
-/

/-- A raw byte buffer: position to byte value. -/
def Buf : Type := Nat → Nat

/-- Byte `i` (little-endian position) of the natural number `x`. -/
def byteOf (x i : Nat) : Nat := x / 256 ^ i % 256

/-- `__builtin_bswap16` on a 16-bit value. -/
def bswap16 (x : Nat) : Nat := byteOf x 0 * 256 + byteOf x 1

/-- `__builtin_bswap32` on a 32-bit value. -/
def bswap32 (x : Nat) : Nat :=
  byteOf x 0 * 256 ^ 3 + byteOf x 1 * 256 ^ 2 + byteOf x 2 * 256 + byteOf x 3

/-- `__builtin_bswap64` on a 64-bit value. -/
def bswap64 (x : Nat) : Nat :=
  byteOf x 0 * 256 ^ 7 + byteOf x 1 * 256 ^ 6 + byteOf x 2 * 256 ^ 5 +
  byteOf x 3 * 256 ^ 4 + byteOf x 4 * 256 ^ 3 + byteOf x 5 * 256 ^ 2 +
  byteOf x 6 * 256 + byteOf x 7

/-- The little-endian 2-byte machine load `*reinterpret_cast<uint16_t*>(&buf[i])`. -/
def load16 (buf : Buf) (i : Nat) : Nat := buf i + buf (i + 1) * 256

/-- The little-endian 4-byte machine load `*reinterpret_cast<uint32_t*>(&buf[i])`. -/
def load32 (buf : Buf) (i : Nat) : Nat :=
  buf i + buf (i + 1) * 256 + buf (i + 2) * 256 ^ 2 + buf (i + 3) * 256 ^ 3

/-- The little-endian 8-byte machine load `*reinterpret_cast<uint64_t*>(&buf[i])`. -/
def load64 (buf : Buf) (i : Nat) : Nat :=
  buf i + buf (i + 1) * 256 + buf (i + 2) * 256 ^ 2 + buf (i + 3) * 256 ^ 3 +
  buf (i + 4) * 256 ^ 4 + buf (i + 5) * 256 ^ 5 + buf (i + 6) * 256 ^ 6 +
  buf (i + 7) * 256 ^ 7

/-- `get2bytes`: byte-swap of the 16-bit load at position `i`. -/
def get2bytes (buf : Buf) (i : Nat) : Nat := bswap16 (load16 buf i)

/-- `get4bytes`: byte-swap of the 32-bit load at position `i`. -/
def get4bytes (buf : Buf) (i : Nat) : Nat := bswap32 (load32 buf i)

/-- `get6bytes`: byte-swap of the 64-bit load, masked with
`0xFFFFFFFFFFFF0000` and shifted right 16 bits; on a 64-bit value the
mask-then-shift is division by `2 ^ 16`. -/
def get6bytes (buf : Buf) (i : Nat) : Nat := bswap64 (load64 buf i) / 2 ^ 16

/-- `get8bytes`: byte-swap of the 64-bit load at position `i`. -/
def get8bytes (buf : Buf) (i : Nat) : Nat := bswap64 (load64 buf i)

/-- Byte-swapping the little-endian 64-bit load of eight valid bytes yields
their big-endian value. -/
theorem bswap64_load64 (buf : Buf) (i : Nat) (h0 : buf i < 256) (h1 : buf (i + 1) < 256)
    (h2 : buf (i + 2) < 256) (h3 : buf (i + 3) < 256) (h4 : buf (i + 4) < 256)
    (h5 : buf (i + 5) < 256) (h6 : buf (i + 6) < 256) (h7 : buf (i + 7) < 256) :
    bswap64 (load64 buf i) =
      buf i * 256 ^ 7 + buf (i + 1) * 256 ^ 6 + buf (i + 2) * 256 ^ 5 +
      buf (i + 3) * 256 ^ 4 + buf (i + 4) * 256 ^ 3 + buf (i + 5) * 256 ^ 2 +
      buf (i + 6) * 256 + buf (i + 7) := by
  have e : load64 buf i =
      buf i + buf (i + 1) * 256 + buf (i + 2) * 65536 + buf (i + 3) * 16777216 +
      buf (i + 4) * 4294967296 + buf (i + 5) * 1099511627776 +
      buf (i + 6) * 281474976710656 + buf (i + 7) * 72057594037927936 := by
    simp only [load64]; norm_num
  have c0 : byteOf (load64 buf i) 0 = buf i := by
    simp only [byteOf, e]; norm_num; omega
  have c1 : byteOf (load64 buf i) 1 = buf (i + 1) := by
    simp only [byteOf, e]; norm_num; omega
  have c2 : byteOf (load64 buf i) 2 = buf (i + 2) := by
    simp only [byteOf, e]; norm_num; omega
  have c3 : byteOf (load64 buf i) 3 = buf (i + 3) := by
    simp only [byteOf, e]; norm_num; omega
  have c4 : byteOf (load64 buf i) 4 = buf (i + 4) := by
    simp only [byteOf, e]; norm_num; omega
  have c5 : byteOf (load64 buf i) 5 = buf (i + 5) := by
    simp only [byteOf, e]; norm_num; omega
  have c6 : byteOf (load64 buf i) 6 = buf (i + 6) := by
    simp only [byteOf, e]; norm_num; omega
  have c7 : byteOf (load64 buf i) 7 = buf (i + 7) := by
    simp only [byteOf, e]; norm_num; omega
  simp only [bswap64, c0, c1, c2, c3, c4, c5, c6, c7]

/-- C8: get2bytes, get4bytes, get6bytes and get8bytes each return the
unsigned integer formed by reading the designated number of bytes at the
given position, most-significant byte first. -/
theorem getbytes_big_endian :
    (∀ (buf : Buf) (i : Nat), buf i < 256 → buf (i + 1) < 256 →
      get2bytes buf i = buf i * 256 + buf (i + 1)) ∧
    (∀ (buf : Buf) (i : Nat), buf i < 256 → buf (i + 1) < 256 → buf (i + 2) < 256 →
      buf (i + 3) < 256 →
      get4bytes buf i =
        buf i * 256 ^ 3 + buf (i + 1) * 256 ^ 2 + buf (i + 2) * 256 + buf (i + 3)) ∧
    (∀ (buf : Buf) (i : Nat), buf i < 256 → buf (i + 1) < 256 → buf (i + 2) < 256 →
      buf (i + 3) < 256 → buf (i + 4) < 256 → buf (i + 5) < 256 → buf (i + 6) < 256 →
      buf (i + 7) < 256 →
      get6bytes buf i =
        buf i * 256 ^ 5 + buf (i + 1) * 256 ^ 4 + buf (i + 2) * 256 ^ 3 +
        buf (i + 3) * 256 ^ 2 + buf (i + 4) * 256 + buf (i + 5)) ∧
    (∀ (buf : Buf) (i : Nat), buf i < 256 → buf (i + 1) < 256 → buf (i + 2) < 256 →
      buf (i + 3) < 256 → buf (i + 4) < 256 → buf (i + 5) < 256 → buf (i + 6) < 256 →
      buf (i + 7) < 256 →
      get8bytes buf i =
        buf i * 256 ^ 7 + buf (i + 1) * 256 ^ 6 + buf (i + 2) * 256 ^ 5 +
        buf (i + 3) * 256 ^ 4 + buf (i + 4) * 256 ^ 3 + buf (i + 5) * 256 ^ 2 +
        buf (i + 6) * 256 + buf (i + 7)) := by
  refine ⟨?_, ?_, ?_, ?_⟩
  · intro buf i h0 h1
    simp only [get2bytes, bswap16, load16, byteOf]
    norm_num
    omega
  · intro buf i h0 h1 h2 h3
    simp only [get4bytes, bswap32, load32, byteOf]
    norm_num
    omega
  · intro buf i h0 h1 h2 h3 h4 h5 h6 h7
    simp only [get6bytes, bswap64_load64 buf i h0 h1 h2 h3 h4 h5 h6 h7]
    norm_num
    omega
  · intro buf i h0 h1 h2 h3 h4 h5 h6 h7
    simp only [get8bytes, bswap64_load64 buf i h0 h1 h2 h3 h4 h5 h6 h7]

/-- A sample buffer for concrete evaluations of the codec. -/
def codecBuf : Buf := fun i => (i + 1) % 256

/-- Witness for C8: the big-endian reading evaluated on a concrete buffer. -/
theorem getbytes_big_endian_witness :
    get8bytes codecBuf 0 =
      codecBuf 0 * 256 ^ 7 + codecBuf 1 * 256 ^ 6 + codecBuf 2 * 256 ^ 5 +
      codecBuf 3 * 256 ^ 4 + codecBuf 4 * 256 ^ 3 + codecBuf 5 * 256 ^ 2 +
      codecBuf 6 * 256 + codecBuf 7 :=
  getbytes_big_endian.2.2.2 codecBuf 0 (by decide) (by decide) (by decide) (by decide)
    (by decide) (by decide) (by decide) (by decide)

/-- The space character compared against when trimming symbol fields. -/
def whiteByte : Nat := 32

/-- The character-by-character build of the stock string: the loop over the
8 symbol bytes at `off`, appending every byte that is not a space. -/
def stockString (buf : Buf) (off : Nat) : String :=
  String.mk (((List.range 8).map (fun k => buf (off + k))).filter
    (fun c => c != whiteByte) |>.map Char.ofNat)

/-- The character-by-character build of the MPID string: the loop over the
4 bytes at `off`, appending every byte that is not a space. -/
def mpidString (buf : Buf) (off : Nat) : String :=
  String.mk (((List.range 4).map (fun k => buf (off + k))).filter
    (fun c => c != whiteByte) |>.map Char.ofNat)

/-- The `rightMessage` loop: fold of `rightMessage || buf[0] == type` over
`validTypes`, starting from `false`. -/
def rightMessageFold (validTypes : List Nat) (b : Nat) : Bool :=
  validTypes.foldl (fun acc t => acc || (b == t)) false

/-- Decoder state of the `Orders` message type: the window bounds, the
running recognized-message count and the per-field output columns. -/
structure Orders where
  startMsgCount : Nat
  endMsgCount : Nat
  messageCount : Nat
  type : List Nat
  locateCode : List Nat
  trackingNumber : List Nat
  timestamp : List Nat
  orderRef : List Nat
  buy : List Bool
  shares : List Nat
  stock : List String
  price : List ℚ
  mpid : List String
deriving DecidableEq

/-- Modelled from the spec: the member initializer of `validTypes` lives in
`MessageTypes.h`, which is not among the sources; the spec fixes the Orders
variant to accept type codes `'A'` (65) and `'F'` (70). -/
def Orders.validTypes : List Nat := [65, 70]

/-- The parsing branch of `Orders::loadMessages`: every field of the frame
pushed onto its column, then `++messageCount`. -/
def Orders.appendFrame (s : Orders) (buf : Buf) : Orders :=
  { s with
    type := s.type ++ [buf 0]
    locateCode := s.locateCode ++ [get2bytes buf 1]
    trackingNumber := s.trackingNumber ++ [get2bytes buf 3]
    timestamp := s.timestamp ++ [get6bytes buf 5]
    orderRef := s.orderRef ++ [get8bytes buf 11]
    buy := s.buy ++ [buf 19 == 66]
    shares := s.shares ++ [get4bytes buf 20]
    stock := s.stock ++ [stockString buf 24]
    price := s.price ++ [(get4bytes buf 32 : ℚ) / 10000]
    mpid := s.mpid ++ [if buf 0 == 70 then mpidString buf 36 else ""]
    messageCount := s.messageCount + 1 }

/-- `Orders::loadMessages`: skip frames of the wrong type, count-and-skip
frames before the window, abort past the window, otherwise parse. -/
def Orders.loadMessages (s : Orders) (buf : Buf) : Bool × Orders :=
  let rightMessage := rightMessageFold Orders.validTypes (buf 0)
  if !rightMessage then (true, s)
  else if s.messageCount < s.startMsgCount then
    (true, { s with messageCount := s.messageCount + 1 })
  else if s.messageCount > s.endMsgCount then (false, s)
  else (true, s.appendFrame buf)

/-- A freshly constructed `Orders` decoder after `setBoundaries a b`:
empty columns, zero message count. -/
def Orders.init (a b : Nat) : Orders :=
  { startMsgCount := a, endMsgCount := b, messageCount := 0
    type := [], locateCode := [], trackingNumber := [], timestamp := []
    orderRef := [], buy := [], shares := [], stock := [], price := [], mpid := [] }

/-- A sequence of `loadMessages` calls on the `Orders` decoder. -/
def Orders.run (s : Orders) (frames : List Buf) : Orders :=
  frames.foldl (fun st f => (st.loadMessages f).2) s

/-- All output columns of an `Orders` state have the same length. -/
def Orders.balanced (s : Orders) : Prop :=
  s.locateCode.length = s.type.length ∧ s.trackingNumber.length = s.type.length ∧
  s.timestamp.length = s.type.length ∧ s.orderRef.length = s.type.length ∧
  s.buy.length = s.type.length ∧ s.shares.length = s.type.length ∧
  s.stock.length = s.type.length ∧ s.price.length = s.type.length ∧
  s.mpid.length = s.type.length

/-- Decoder state of the `Trades` message type. -/
structure Trades where
  startMsgCount : Nat
  endMsgCount : Nat
  messageCount : Nat
  type : List Nat
  locateCode : List Nat
  trackingNumber : List Nat
  timestamp : List Nat
  orderRef : List Nat
  buy : List Bool
  shares : List Nat
  stock : List String
  price : List ℚ
  matchNumber : List Nat
  crossType : List Nat
deriving DecidableEq

/-- Modelled from the spec: the member initializer of `validTypes` lives in
`MessageTypes.h`, which is not among the sources; the spec fixes the Trades
variant to accept type codes `'P'` (80), `'Q'` (81) and `'B'` (66). -/
def Trades.validTypes : List Nat := [80, 81, 66]

/-- The parsing branch of `Trades::loadMessages`: the common fields, the
`switch` on the type byte, then `++messageCount`.  The `default` branch of
the switch only prints a diagnostic, so there a frame appends the common
fields but no variant-specific one. -/
def Trades.appendFrame (s : Trades) (buf : Buf) : Trades :=
  let s1 :=
    { s with
      type := s.type ++ [buf 0]
      locateCode := s.locateCode ++ [get2bytes buf 1]
      trackingNumber := s.trackingNumber ++ [get2bytes buf 3]
      timestamp := s.timestamp ++ [get6bytes buf 5] }
  let s2 :=
    if buf 0 == 80 then
      { s1 with
        orderRef := s1.orderRef ++ [get8bytes buf 11]
        buy := s1.buy ++ [buf 19 == 66]
        shares := s1.shares ++ [get4bytes buf 20]
        stock := s1.stock ++ [stockString buf 24]
        price := s1.price ++ [(get4bytes buf 32 : ℚ) / 10000]
        matchNumber := s1.matchNumber ++ [get8bytes buf 36]
        crossType := s1.crossType ++ [whiteByte] }
    else if buf 0 == 81 then
      { s1 with
        shares := s1.shares ++ [get4bytes buf 11]
        stock := s1.stock ++ [stockString buf 19]
        price := s1.price ++ [(get4bytes buf 27 : ℚ) / 10000]
        matchNumber := s1.matchNumber ++ [get8bytes buf 31]
        crossType := s1.crossType ++ [buf 39]
        orderRef := s1.orderRef ++ [0]
        buy := s1.buy ++ [false] }
    else if buf 0 == 66 then
      { s1 with
        matchNumber := s1.matchNumber ++ [get8bytes buf 11]
        orderRef := s1.orderRef ++ [0]
        buy := s1.buy ++ [false]
        shares := s1.shares ++ [0]
        stock := s1.stock ++ [""]
        price := s1.price ++ [0]
        crossType := s1.crossType ++ [whiteByte] }
    else s1
  { s2 with messageCount := s2.messageCount + 1 }

/-- `Trades::loadMessages`. -/
def Trades.loadMessages (s : Trades) (buf : Buf) : Bool × Trades :=
  let wrongMessage := rightMessageFold Trades.validTypes (buf 0)
  if !wrongMessage then (true, s)
  else if s.messageCount < s.startMsgCount then
    (true, { s with messageCount := s.messageCount + 1 })
  else if s.messageCount > s.endMsgCount then (false, s)
  else (true, s.appendFrame buf)

/-- A freshly constructed `Trades` decoder after `setBoundaries a b`. -/
def Trades.init (a b : Nat) : Trades :=
  { startMsgCount := a, endMsgCount := b, messageCount := 0
    type := [], locateCode := [], trackingNumber := [], timestamp := []
    orderRef := [], buy := [], shares := [], stock := [], price := []
    matchNumber := [], crossType := [] }

/-- A sequence of `loadMessages` calls on the `Trades` decoder. -/
def Trades.run (s : Trades) (frames : List Buf) : Trades :=
  frames.foldl (fun st f => (st.loadMessages f).2) s

/-- All output columns of a `Trades` state have the same length. -/
def Trades.balanced (s : Trades) : Prop :=
  s.locateCode.length = s.type.length ∧ s.trackingNumber.length = s.type.length ∧
  s.timestamp.length = s.type.length ∧ s.orderRef.length = s.type.length ∧
  s.buy.length = s.type.length ∧ s.shares.length = s.type.length ∧
  s.stock.length = s.type.length ∧ s.price.length = s.type.length ∧
  s.matchNumber.length = s.type.length ∧ s.crossType.length = s.type.length

/-- Decoder state of the `Modifications` message type.  The `printable`
column holds raw bytes: `'N'` is 78, the C++ literal `false` converts to 0. -/
structure Modifications where
  startMsgCount : Nat
  endMsgCount : Nat
  messageCount : Nat
  type : List Nat
  locateCode : List Nat
  trackingNumber : List Nat
  timestamp : List Nat
  orderRef : List Nat
  shares : List Nat
  matchNumber : List Nat
  printable : List Nat
  price : List ℚ
  newOrderRef : List Nat
deriving DecidableEq

/-- Modelled from the spec: the member initializer of `validTypes` lives in
`MessageTypes.h`, which is not among the sources; the spec fixes the
Modifications variant to accept `'E'` (69), `'C'` (67), `'X'` (88),
`'D'` (68) and `'U'` (85). -/
def Modifications.validTypes : List Nat := [69, 67, 88, 68, 85]

/-- The parsing branch of `Modifications::loadMessages`: the common fields,
the `switch` on the type byte, then `++messageCount`. -/
def Modifications.appendFrame (s : Modifications) (buf : Buf) : Modifications :=
  let s1 :=
    { s with
      type := s.type ++ [buf 0]
      locateCode := s.locateCode ++ [get2bytes buf 1]
      trackingNumber := s.trackingNumber ++ [get2bytes buf 3]
      timestamp := s.timestamp ++ [get6bytes buf 5]
      orderRef := s.orderRef ++ [get8bytes buf 11] }
  let s2 :=
    if buf 0 == 69 then
      { s1 with
        shares := s1.shares ++ [get4bytes buf 19]
        matchNumber := s1.matchNumber ++ [get8bytes buf 23]
        printable := s1.printable ++ [78]
        price := s1.price ++ [0]
        newOrderRef := s1.newOrderRef ++ [0] }
    else if buf 0 == 67 then
      { s1 with
        shares := s1.shares ++ [get4bytes buf 19]
        matchNumber := s1.matchNumber ++ [get8bytes buf 23]
        printable := s1.printable ++ [buf 31]
        price := s1.price ++ [(get4bytes buf 32 : ℚ) / 10000]
        newOrderRef := s1.newOrderRef ++ [0] }
    else if buf 0 == 88 then
      { s1 with
        shares := s1.shares ++ [get4bytes buf 19]
        matchNumber := s1.matchNumber ++ [0]
        printable := s1.printable ++ [0]
        price := s1.price ++ [0]
        newOrderRef := s1.newOrderRef ++ [0] }
    else if buf 0 == 68 then
      { s1 with
        shares := s1.shares ++ [0]
        matchNumber := s1.matchNumber ++ [0]
        printable := s1.printable ++ [0]
        price := s1.price ++ [0]
        newOrderRef := s1.newOrderRef ++ [0] }
    else if buf 0 == 85 then
      { s1 with
        newOrderRef := s1.newOrderRef ++ [get8bytes buf 19]
        shares := s1.shares ++ [get4bytes buf 27]
        price := s1.price ++ [(get4bytes buf 31 : ℚ) / 10000]
        matchNumber := s1.matchNumber ++ [0]
        printable := s1.printable ++ [0] }
    else s1
  { s2 with messageCount := s2.messageCount + 1 }

/-- `Modifications::loadMessages`. -/
def Modifications.loadMessages (s : Modifications) (buf : Buf) : Bool × Modifications :=
  let wrongMessage := rightMessageFold Modifications.validTypes (buf 0)
  if !wrongMessage then (true, s)
  else if s.messageCount < s.startMsgCount then
    (true, { s with messageCount := s.messageCount + 1 })
  else if s.messageCount > s.endMsgCount then (false, s)
  else (true, s.appendFrame buf)

/-- A freshly constructed `Modifications` decoder after `setBoundaries a b`. -/
def Modifications.init (a b : Nat) : Modifications :=
  { startMsgCount := a, endMsgCount := b, messageCount := 0
    type := [], locateCode := [], trackingNumber := [], timestamp := []
    orderRef := [], shares := [], matchNumber := [], printable := []
    price := [], newOrderRef := [] }

/-- A sequence of `loadMessages` calls on the `Modifications` decoder. -/
def Modifications.run (s : Modifications) (frames : List Buf) : Modifications :=
  frames.foldl (fun st f => (st.loadMessages f).2) s

/-- All output columns of a `Modifications` state have the same length. -/
def Modifications.balanced (s : Modifications) : Prop :=
  s.locateCode.length = s.type.length ∧ s.trackingNumber.length = s.type.length ∧
  s.timestamp.length = s.type.length ∧ s.orderRef.length = s.type.length ∧
  s.shares.length = s.type.length ∧ s.matchNumber.length = s.type.length ∧
  s.printable.length = s.type.length ∧ s.price.length = s.type.length ∧
  s.newOrderRef.length = s.type.length

/-- One `Orders.loadMessages` call preserves equal column lengths. -/
theorem orders_load_balanced (s : Orders) (f : Buf) (h : s.balanced) :
    ((s.loadMessages f).2).balanced := by
  obtain ⟨h1, h2, h3, h4, h5, h6, h7, h8, h9⟩ := h
  simp only [Orders.loadMessages]
  rcases hr : rightMessageFold Orders.validTypes (f 0) with _ | _
  · simp only [hr, Bool.not_false, if_pos]
    exact ⟨h1, h2, h3, h4, h5, h6, h7, h8, h9⟩
  · simp only [hr, Bool.not_true, Bool.false_eq_true, if_false]
    rcases Nat.lt_or_ge s.messageCount s.startMsgCount with hlt | hge
    · rw [if_pos hlt]
      exact ⟨h1, h2, h3, h4, h5, h6, h7, h8, h9⟩
    · rw [if_neg (Nat.not_lt.mpr hge)]
      rcases Nat.lt_or_ge s.endMsgCount s.messageCount with hgt | hle
      · rw [if_pos hgt]
        exact ⟨h1, h2, h3, h4, h5, h6, h7, h8, h9⟩
      · rw [if_neg (Nat.not_lt.mpr hle)]
        simp [Orders.appendFrame, Orders.balanced, h1, h2, h3, h4, h5, h6, h7, h8, h9]

/-- One `Trades.loadMessages` call preserves equal column lengths. -/
theorem trades_load_balanced (s : Trades) (f : Buf) (h : s.balanced) :
    ((s.loadMessages f).2).balanced := by
  obtain ⟨h1, h2, h3, h4, h5, h6, h7, h8, h9, h10⟩ := h
  simp only [Trades.loadMessages]
  rcases hr : rightMessageFold Trades.validTypes (f 0) with _ | _
  · simp only [hr, Bool.not_false, if_pos]
    exact ⟨h1, h2, h3, h4, h5, h6, h7, h8, h9, h10⟩
  · simp only [hr, Bool.not_true, Bool.false_eq_true, if_false]
    rcases Nat.lt_or_ge s.messageCount s.startMsgCount with hlt | hge
    · rw [if_pos hlt]
      exact ⟨h1, h2, h3, h4, h5, h6, h7, h8, h9, h10⟩
    · rw [if_neg (Nat.not_lt.mpr hge)]
      rcases Nat.lt_or_ge s.endMsgCount s.messageCount with hgt | hle
      · rw [if_pos hgt]
        exact ⟨h1, h2, h3, h4, h5, h6, h7, h8, h9, h10⟩
      · rw [if_neg (Nat.not_lt.mpr hle)]
        have hv3 : f 0 = 80 ∨ f 0 = 81 ∨ f 0 = 66 := by
          simp only [rightMessageFold, Trades.validTypes, List.foldl, Bool.false_or,
            Bool.or_eq_true, beq_iff_eq] at hr
          tauto
        clear hr
        rcases hv3 with hv | hv | hv
        all_goals
          simp [Trades.appendFrame, Trades.balanced, hv, h1, h2, h3, h4, h5, h6,
            h7, h8, h9, h10]

/-- One `Modifications.loadMessages` call preserves equal column lengths. -/
theorem mods_load_balanced (s : Modifications) (f : Buf)
    (h : s.balanced) : ((s.loadMessages f).2).balanced := by
  obtain ⟨h1, h2, h3, h4, h5, h6, h7, h8, h9⟩ := h
  simp only [Modifications.loadMessages]
  rcases hr : rightMessageFold Modifications.validTypes (f 0) with _ | _
  · simp only [hr, Bool.not_false, if_pos]
    exact ⟨h1, h2, h3, h4, h5, h6, h7, h8, h9⟩
  · simp only [hr, Bool.not_true, Bool.false_eq_true, if_false]
    rcases Nat.lt_or_ge s.messageCount s.startMsgCount with hlt | hge
    · rw [if_pos hlt]
      exact ⟨h1, h2, h3, h4, h5, h6, h7, h8, h9⟩
    · rw [if_neg (Nat.not_lt.mpr hge)]
      rcases Nat.lt_or_ge s.endMsgCount s.messageCount with hgt | hle
      · rw [if_pos hgt]
        exact ⟨h1, h2, h3, h4, h5, h6, h7, h8, h9⟩
      · rw [if_neg (Nat.not_lt.mpr hle)]
        have hv5 : f 0 = 69 ∨ f 0 = 67 ∨ f 0 = 88 ∨ f 0 = 68 ∨ f 0 = 85 := by
          simp only [rightMessageFold, Modifications.validTypes, List.foldl,
            Bool.false_or, Bool.or_eq_true, beq_iff_eq] at hr
          tauto
        clear hr
        rcases hv5 with hv | hv | hv | hv | hv
        all_goals
          simp [Modifications.appendFrame, Modifications.balanced, hv, h1, h2, h3,
            h4, h5, h6, h7, h8, h9]

/-- Equal column lengths are preserved by any sequence of Orders calls. -/
theorem orders_run_balanced (frames : List Buf) (s : Orders) (h : s.balanced) :
    (s.run frames).balanced := by
  induction frames generalizing s with
  | nil => exact h
  | cons f fs ih => exact ih _ (orders_load_balanced s f h)

/-- Equal column lengths are preserved by any sequence of Trades calls. -/
theorem trades_run_balanced (frames : List Buf) (s : Trades) (h : s.balanced) :
    (s.run frames).balanced := by
  induction frames generalizing s with
  | nil => exact h
  | cons f fs ih => exact ih _ (trades_load_balanced s f h)

/-- Equal column lengths are preserved by any sequence of Modifications calls. -/
theorem mods_run_balanced (frames : List Buf) (s : Modifications)
    (h : s.balanced) : (s.run frames).balanced := by
  induction frames generalizing s with
  | nil => exact h
  | cons f fs ih => exact ih _ (mods_load_balanced s f h)

/-- C1: for every decoder variant and every sequence of loadMessages calls
starting from the freshly constructed empty state, all per-field output
columns have equal length after every call. -/
theorem columns_equal_length :
    (∀ (a b : Nat) (frames : List Buf), ((Orders.init a b).run frames).balanced) ∧
    (∀ (a b : Nat) (frames : List Buf), ((Trades.init a b).run frames).balanced) ∧
    (∀ (a b : Nat) (frames : List Buf), ((Modifications.init a b).run frames).balanced) :=
  ⟨fun a b frames => orders_run_balanced frames _ (by simp [Orders.init, Orders.balanced]),
   fun a b frames => trades_run_balanced frames _ (by simp [Trades.init, Trades.balanced]),
   fun a b frames =>
     mods_run_balanced frames _
       (by simp [Modifications.init, Modifications.balanced])⟩

/-- The type column of an appended Orders frame. -/
theorem orders_appendFrame_type (s : Orders) (buf : Buf) :
    (s.appendFrame buf).type = s.type ++ [buf 0] := rfl

/-- The type column of an appended Trades frame. -/
theorem trades_appendFrame_type (s : Trades) (buf : Buf) :
    (s.appendFrame buf).type = s.type ++ [buf 0] := by
  simp only [Trades.appendFrame]
  split_ifs <;> rfl

/-- The type column of an appended Modifications frame. -/
theorem mods_appendFrame_type (s : Modifications) (buf : Buf) :
    (s.appendFrame buf).type = s.type ++ [buf 0] := by
  simp only [Modifications.appendFrame]
  split_ifs <;> rfl

/-- C2: a frame of a recognized type is appended to the output columns iff
the current messageCount lies in the inclusive window
`[startMsgCount, endMsgCount]`, for each decoder variant. -/
theorem retained_iff_in_window :
    (∀ (s : Orders) (buf : Buf), rightMessageFold Orders.validTypes (buf 0) = true →
      ((s.loadMessages buf).2 = s.appendFrame buf ↔
        s.startMsgCount ≤ s.messageCount ∧ s.messageCount ≤ s.endMsgCount)) ∧
    (∀ (s : Trades) (buf : Buf), rightMessageFold Trades.validTypes (buf 0) = true →
      ((s.loadMessages buf).2 = s.appendFrame buf ↔
        s.startMsgCount ≤ s.messageCount ∧ s.messageCount ≤ s.endMsgCount)) ∧
    (∀ (s : Modifications) (buf : Buf),
      rightMessageFold Modifications.validTypes (buf 0) = true →
      ((s.loadMessages buf).2 = s.appendFrame buf ↔
        s.startMsgCount ≤ s.messageCount ∧ s.messageCount ≤ s.endMsgCount)) := by
  refine ⟨?_, ?_, ?_⟩
  · intro s buf hr
    simp only [Orders.loadMessages, hr, Bool.not_true, Bool.false_eq_true, if_false]
    rcases Nat.lt_or_ge s.messageCount s.startMsgCount with hlt | hge
    · rw [if_pos hlt]
      refine iff_of_false ?_ (fun hw => absurd hw.1 (Nat.not_le.mpr hlt))
      intro heq
      have ht := congrArg Orders.type heq
      rw [orders_appendFrame_type] at ht
      simp at ht
    · rw [if_neg (Nat.not_lt.mpr hge)]
      rcases Nat.lt_or_ge s.endMsgCount s.messageCount with hgt | hle
      · rw [if_pos hgt]
        refine iff_of_false ?_ (fun hw => absurd hw.2 (Nat.not_le.mpr hgt))
        intro heq
        have ht := congrArg Orders.type heq
        rw [orders_appendFrame_type] at ht
        simp at ht
      · rw [if_neg (Nat.not_lt.mpr hle)]
        exact iff_of_true rfl ⟨hge, hle⟩
  · intro s buf hr
    simp only [Trades.loadMessages, hr, Bool.not_true, Bool.false_eq_true, if_false]
    rcases Nat.lt_or_ge s.messageCount s.startMsgCount with hlt | hge
    · rw [if_pos hlt]
      refine iff_of_false ?_ (fun hw => absurd hw.1 (Nat.not_le.mpr hlt))
      intro heq
      have ht := congrArg Trades.type heq
      rw [trades_appendFrame_type] at ht
      simp at ht
    · rw [if_neg (Nat.not_lt.mpr hge)]
      rcases Nat.lt_or_ge s.endMsgCount s.messageCount with hgt | hle
      · rw [if_pos hgt]
        refine iff_of_false ?_ (fun hw => absurd hw.2 (Nat.not_le.mpr hgt))
        intro heq
        have ht := congrArg Trades.type heq
        rw [trades_appendFrame_type] at ht
        simp at ht
      · rw [if_neg (Nat.not_lt.mpr hle)]
        exact iff_of_true rfl ⟨hge, hle⟩
  · intro s buf hr
    simp only [Modifications.loadMessages, hr, Bool.not_true, Bool.false_eq_true, if_false]
    rcases Nat.lt_or_ge s.messageCount s.startMsgCount with hlt | hge
    · rw [if_pos hlt]
      refine iff_of_false ?_ (fun hw => absurd hw.1 (Nat.not_le.mpr hlt))
      intro heq
      have ht := congrArg Modifications.type heq
      rw [mods_appendFrame_type] at ht
      simp at ht
    · rw [if_neg (Nat.not_lt.mpr hge)]
      rcases Nat.lt_or_ge s.endMsgCount s.messageCount with hgt | hle
      · rw [if_pos hgt]
        refine iff_of_false ?_ (fun hw => absurd hw.2 (Nat.not_le.mpr hgt))
        intro heq
        have ht := congrArg Modifications.type heq
        rw [mods_appendFrame_type] at ht
        simp at ht
      · rw [if_neg (Nat.not_lt.mpr hle)]
        exact iff_of_true rfl ⟨hge, hle⟩

/-- A concrete add-order frame: type byte `'A'`, every other byte zero. -/
def frameA : Buf := fun i => if i = 0 then 65 else 0

/-- Witness for C2: the in-window direction applied at a concrete state. -/
theorem retained_iff_in_window_witness :
    ((Orders.init 0 5).loadMessages frameA).2 = (Orders.init 0 5).appendFrame frameA :=
  (retained_iff_in_window.1 (Orders.init 0 5) frameA (by decide)).mpr (by decide)

/-- C3: under the orchestrator invariant `startMsgCount ≤ endMsgCount`, a
call past the window on a recognized frame returns false with the state
unchanged, and every other call returns true, for each decoder variant. -/
theorem early_exit_past_window :
    (∀ (s : Orders) (buf : Buf), s.startMsgCount ≤ s.endMsgCount →
      ((rightMessageFold Orders.validTypes (buf 0) = true ∧
          s.endMsgCount < s.messageCount) → s.loadMessages buf = (false, s)) ∧
      (¬(rightMessageFold Orders.validTypes (buf 0) = true ∧
          s.endMsgCount < s.messageCount) → (s.loadMessages buf).1 = true)) ∧
    (∀ (s : Trades) (buf : Buf), s.startMsgCount ≤ s.endMsgCount →
      ((rightMessageFold Trades.validTypes (buf 0) = true ∧
          s.endMsgCount < s.messageCount) → s.loadMessages buf = (false, s)) ∧
      (¬(rightMessageFold Trades.validTypes (buf 0) = true ∧
          s.endMsgCount < s.messageCount) → (s.loadMessages buf).1 = true)) ∧
    (∀ (s : Modifications) (buf : Buf), s.startMsgCount ≤ s.endMsgCount →
      ((rightMessageFold Modifications.validTypes (buf 0) = true ∧
          s.endMsgCount < s.messageCount) → s.loadMessages buf = (false, s)) ∧
      (¬(rightMessageFold Modifications.validTypes (buf 0) = true ∧
          s.endMsgCount < s.messageCount) → (s.loadMessages buf).1 = true)) := by
  refine ⟨?_, ?_, ?_⟩
  · intro s buf hb
    constructor
    · rintro ⟨hr, hgt⟩
      simp only [Orders.loadMessages, hr, Bool.not_true, Bool.false_eq_true, if_false]
      rw [if_neg (Nat.not_lt.mpr (le_trans hb (Nat.le_of_lt hgt))), if_pos hgt]
    · intro hn
      simp only [Orders.loadMessages]
      rcases hr : rightMessageFold Orders.validTypes (buf 0) with _ | _
      · simp [hr]
      · have hle : ¬ s.endMsgCount < s.messageCount := fun hgt => hn ⟨hr, hgt⟩
        simp only [hr, Bool.not_true, Bool.false_eq_true, if_false]
        rcases Nat.lt_or_ge s.messageCount s.startMsgCount with hlt | hge
        · rw [if_pos hlt]
        · rw [if_neg (Nat.not_lt.mpr hge), if_neg hle]
  · intro s buf hb
    constructor
    · rintro ⟨hr, hgt⟩
      simp only [Trades.loadMessages, hr, Bool.not_true, Bool.false_eq_true, if_false]
      rw [if_neg (Nat.not_lt.mpr (le_trans hb (Nat.le_of_lt hgt))), if_pos hgt]
    · intro hn
      simp only [Trades.loadMessages]
      rcases hr : rightMessageFold Trades.validTypes (buf 0) with _ | _
      · simp [hr]
      · have hle : ¬ s.endMsgCount < s.messageCount := fun hgt => hn ⟨hr, hgt⟩
        simp only [hr, Bool.not_true, Bool.false_eq_true, if_false]
        rcases Nat.lt_or_ge s.messageCount s.startMsgCount with hlt | hge
        · rw [if_pos hlt]
        · rw [if_neg (Nat.not_lt.mpr hge), if_neg hle]
  · intro s buf hb
    constructor
    · rintro ⟨hr, hgt⟩
      simp only [Modifications.loadMessages, hr, Bool.not_true, Bool.false_eq_true,
        if_false]
      rw [if_neg (Nat.not_lt.mpr (le_trans hb (Nat.le_of_lt hgt))), if_pos hgt]
    · intro hn
      simp only [Modifications.loadMessages]
      rcases hr : rightMessageFold Modifications.validTypes (buf 0) with _ | _
      · simp [hr]
      · have hle : ¬ s.endMsgCount < s.messageCount := fun hgt => hn ⟨hr, hgt⟩
        simp only [hr, Bool.not_true, Bool.false_eq_true, if_false]
        rcases Nat.lt_or_ge s.messageCount s.startMsgCount with hlt | hge
        · rw [if_pos hlt]
        · rw [if_neg (Nat.not_lt.mpr hge), if_neg hle]

/-- A decoder state already past its window: bounds `[0, 1]`, count 2. -/
def ordersPast : Orders :=
  { Orders.init 0 1 with messageCount := 2 }

/-- Witness for C3: past the window, the concrete call aborts unchanged. -/
theorem early_exit_past_window_witness :
    ordersPast.loadMessages frameA = (false, ordersPast) :=
  (early_exit_past_window.1 ordersPast frameA (by decide)).1 ⟨by decide, by decide⟩

/-- C9: a frame whose type byte is outside the variant's validTypes is
skipped: the call returns true and the whole decoder state, messageCount
included, is unchanged, for each decoder variant. -/
theorem wrong_type_skipped :
    (∀ (s : Orders) (buf : Buf), buf 0 ∉ Orders.validTypes →
      s.loadMessages buf = (true, s)) ∧
    (∀ (s : Trades) (buf : Buf), buf 0 ∉ Trades.validTypes →
      s.loadMessages buf = (true, s)) ∧
    (∀ (s : Modifications) (buf : Buf), buf 0 ∉ Modifications.validTypes →
      s.loadMessages buf = (true, s)) := by
  refine ⟨?_, ?_, ?_⟩
  · intro s buf h
    simp only [Orders.validTypes, List.mem_cons, List.not_mem_nil, or_false] at h
    push_neg at h
    simp [Orders.loadMessages, rightMessageFold, Orders.validTypes, h.1, h.2]
  · intro s buf h
    simp only [Trades.validTypes, List.mem_cons, List.not_mem_nil, or_false] at h
    push_neg at h
    simp [Trades.loadMessages, rightMessageFold, Trades.validTypes, h.1, h.2.1, h.2.2]
  · intro s buf h
    simp only [Modifications.validTypes, List.mem_cons, List.not_mem_nil, or_false] at h
    push_neg at h
    simp [Modifications.loadMessages, rightMessageFold, Modifications.validTypes,
      h.1, h.2.1, h.2.2.1, h.2.2.2.1, h.2.2.2.2]

/-- A concrete system-event frame: type byte `'S'` (83), unknown to all
three variants. -/
def frameS : Buf := fun i => if i = 0 then 83 else 0

/-- Witness for C9: the unrecognized concrete frame leaves a concrete
Orders state untouched. -/
theorem wrong_type_skipped_witness :
    (Orders.init 0 5).loadMessages frameS = (true, Orders.init 0 5) :=
  wrong_type_skipped.1 (Orders.init 0 5) frameS (by decide)

/-- The raw 8-byte stock symbol field of a frame, read at offset `off`. -/
def stockField (buf : Buf) (off : Nat) : List Nat :=
  (List.range 8).map (fun k => buf (off + k))

/-- Right-space-trimming of a byte field, as the spec words it: only the
trailing spaces are removed. -/
def rstripSpaces (l : List Nat) : List Nat :=
  (l.reverse.dropWhile (fun c => c == whiteByte)).reverse

/-- The string made of a byte field after right-space-trimming. -/
def rstripString (l : List Nat) : String :=
  String.mk ((rstripSpaces l).map Char.ofNat)

/-- A concrete add-order frame whose symbol field `"AB CD   "` carries an
interior space. -/
def frameInterior : Buf := fun i =>
  (([65] ++ List.replicate 23 0) ++ [65, 66, 32, 67, 68, 32, 32, 32]).getD i 0

/-- Counterexample to C4: the concrete frame is retained, yet its decoded
stock value differs from the right-space-trimmed symbol field, because the
loop also drops the interior space. -/
theorem stock_right_trim_counterexample :
    ((Orders.init 0 5).loadMessages frameInterior).2 =
      (Orders.init 0 5).appendFrame frameInterior ∧
    ((Orders.init 0 5).loadMessages frameInterior).2.stock ≠
      [rstripString (stockField frameInterior 24)] := by
  constructor
  · rfl
  · decide

/-- A concrete add-order frame whose symbol field is `"AAPL    "`. -/
def frameAAPL : Buf := fun i =>
  (([65] ++ List.replicate 23 0) ++ [65, 65, 80, 76, 32, 32, 32, 32]).getD i 0

/-- C4 (amended): the decoded stock value is the 8-byte symbol field with
every space character removed; on a left-justified field such as
`"AAPL    "` this coincides with right-space-trimming and yields `"AAPL"`. -/
theorem stock_spaces_removed :
    (∀ (s : Orders) (buf : Buf), rightMessageFold Orders.validTypes (buf 0) = true →
      s.startMsgCount ≤ s.messageCount → s.messageCount ≤ s.endMsgCount →
      ((s.loadMessages buf).2).stock = s.stock ++
        [String.mk (((stockField buf 24).filter (fun c => c != whiteByte)).map
          Char.ofNat)]) ∧
    ((Orders.init 0 5).loadMessages frameAAPL).2.stock = ["AAPL"] := by
  constructor
  · intro s buf hr hge hle
    simp only [Orders.loadMessages, hr, Bool.not_true, Bool.false_eq_true, if_false,
      if_neg (Nat.not_lt.mpr hge), if_neg (Nat.not_lt.mpr hle)]
    simp [Orders.appendFrame, stockString, stockField]
  · decide

/-- Witness for C4 (amended): the universal part applied to the concrete
`"AAPL    "` frame. -/
theorem stock_spaces_removed_witness :
    ((Orders.init 0 5).loadMessages frameAAPL).2.stock = [] ++
      [String.mk (((stockField frameAAPL 24).filter (fun c => c != whiteByte)).map
        Char.ofNat)] :=
  stock_spaces_removed.1 (Orders.init 0 5) frameAAPL (by decide) (by decide) (by decide)

/-- A concrete order-executed frame: type byte `'E'`, every other byte zero. -/
def frameE : Buf := fun i => if i = 0 then 69 else 0

/-- Counterexample to C5: the concrete `'E'` frame is retained, yet its
printable column receives the byte `'N'` (78), which is neither the space
character (32) nor false (0). -/
theorem exec_sentinel_counterexample :
    ((Modifications.init 0 5).loadMessages frameE).2 =
      (Modifications.init 0 5).appendFrame frameE ∧
    ((Modifications.init 0 5).loadMessages frameE).2.printable ≠ [whiteByte] ∧
    ((Modifications.init 0 5).loadMessages frameE).2.printable ≠ [0] := by
  refine ⟨rfl, ?_, ?_⟩ <;> decide

/-- C5 (amended): a retained `'E'` frame decodes only executed shares and
match number from the frame bytes among the variant-specific fields; price
and new-order-reference receive the numeric sentinels 0 / 0.0, and the
printable byte receives the constant `'N'` (78). -/
theorem exec_frame_fields :
    ∀ (s : Modifications) (buf : Buf), buf 0 = 69 →
      s.startMsgCount ≤ s.messageCount → s.messageCount ≤ s.endMsgCount →
      ((s.loadMessages buf).2).shares = s.shares ++ [get4bytes buf 19] ∧
      ((s.loadMessages buf).2).matchNumber = s.matchNumber ++ [get8bytes buf 23] ∧
      ((s.loadMessages buf).2).printable = s.printable ++ [78] ∧
      ((s.loadMessages buf).2).price = s.price ++ [0] ∧
      ((s.loadMessages buf).2).newOrderRef = s.newOrderRef ++ [0] := by
  intro s buf hv hge hle
  have hr : rightMessageFold Modifications.validTypes (buf 0) = true := by
    rw [hv]; decide
  simp only [Modifications.loadMessages, hr, Bool.not_true, Bool.false_eq_true,
    if_false, if_neg (Nat.not_lt.mpr hge), if_neg (Nat.not_lt.mpr hle)]
  simp [Modifications.appendFrame, hv]

/-- Witness for C5 (amended): the theorem applied to the concrete `'E'`
frame. -/
theorem exec_frame_fields_witness :
    ((Modifications.init 0 5).loadMessages frameE).2.printable = [] ++ [78] :=
  (exec_frame_fields (Modifications.init 0 5) frameE (by decide) (by decide)
    (by decide)).2.2.1

/-- A concrete add-order frame with raw price field 12340000. -/
def framePriceA : Buf := fun i =>
  if i = 0 then 65 else if i = 33 then 188 else if i = 34 then 75 else
  if i = 35 then 32 else 0

/-- A concrete add-order frame with raw price field 250. -/
def framePriceB : Buf := fun i =>
  if i = 0 then 65 else if i = 35 then 250 else 0

/-- C10: every retained frame carrying a price field decodes it as the raw
4-byte big-endian value divided by 10000; raw 12340000 gives 1234.0 and raw
250 gives 0.025. -/
theorem price_scaling :
    (∀ (s : Orders) (buf : Buf), rightMessageFold Orders.validTypes (buf 0) = true →
      s.startMsgCount ≤ s.messageCount → s.messageCount ≤ s.endMsgCount →
      ((s.loadMessages buf).2).price = s.price ++ [(get4bytes buf 32 : ℚ) / 10000]) ∧
    (∀ (s : Trades) (buf : Buf), buf 0 = 80 →
      s.startMsgCount ≤ s.messageCount → s.messageCount ≤ s.endMsgCount →
      ((s.loadMessages buf).2).price = s.price ++ [(get4bytes buf 32 : ℚ) / 10000]) ∧
    (∀ (s : Trades) (buf : Buf), buf 0 = 81 →
      s.startMsgCount ≤ s.messageCount → s.messageCount ≤ s.endMsgCount →
      ((s.loadMessages buf).2).price = s.price ++ [(get4bytes buf 27 : ℚ) / 10000]) ∧
    (∀ (s : Modifications) (buf : Buf), buf 0 = 67 →
      s.startMsgCount ≤ s.messageCount → s.messageCount ≤ s.endMsgCount →
      ((s.loadMessages buf).2).price = s.price ++ [(get4bytes buf 32 : ℚ) / 10000]) ∧
    (∀ (s : Modifications) (buf : Buf), buf 0 = 85 →
      s.startMsgCount ≤ s.messageCount → s.messageCount ≤ s.endMsgCount →
      ((s.loadMessages buf).2).price = s.price ++ [(get4bytes buf 31 : ℚ) / 10000]) ∧
    ((Orders.init 0 5).loadMessages framePriceA).2.price = [1234] ∧
    ((Orders.init 0 5).loadMessages framePriceB).2.price = [0.025] := by
  have hA : ((Orders.init 0 5).loadMessages framePriceA).2.price =
      [(get4bytes framePriceA 32 : ℚ) / 10000] := rfl
  have hB : ((Orders.init 0 5).loadMessages framePriceB).2.price =
      [(get4bytes framePriceB 32 : ℚ) / 10000] := rfl
  have hgA : get4bytes framePriceA 32 = 12340000 := by decide
  have hgB : get4bytes framePriceB 32 = 250 := by decide
  refine ⟨?_, ?_, ?_, ?_, ?_, by rw [hA, hgA]; norm_num, by rw [hB, hgB]; norm_num⟩
  · intro s buf hr hge hle
    simp only [Orders.loadMessages, hr, Bool.not_true, Bool.false_eq_true, if_false,
      if_neg (Nat.not_lt.mpr hge), if_neg (Nat.not_lt.mpr hle)]
    simp [Orders.appendFrame]
  · intro s buf hv hge hle
    have hr : rightMessageFold Trades.validTypes (buf 0) = true := by rw [hv]; decide
    simp only [Trades.loadMessages, hr, Bool.not_true, Bool.false_eq_true, if_false,
      if_neg (Nat.not_lt.mpr hge), if_neg (Nat.not_lt.mpr hle)]
    simp [Trades.appendFrame, hv]
  · intro s buf hv hge hle
    have hr : rightMessageFold Trades.validTypes (buf 0) = true := by rw [hv]; decide
    simp only [Trades.loadMessages, hr, Bool.not_true, Bool.false_eq_true, if_false,
      if_neg (Nat.not_lt.mpr hge), if_neg (Nat.not_lt.mpr hle)]
    simp [Trades.appendFrame, hv]
  · intro s buf hv hge hle
    have hr : rightMessageFold Modifications.validTypes (buf 0) = true := by
      rw [hv]; decide
    simp only [Modifications.loadMessages, hr, Bool.not_true, Bool.false_eq_true,
      if_false, if_neg (Nat.not_lt.mpr hge), if_neg (Nat.not_lt.mpr hle)]
    simp [Modifications.appendFrame, hv]
  · intro s buf hv hge hle
    have hr : rightMessageFold Modifications.validTypes (buf 0) = true := by
      rw [hv]; decide
    simp only [Modifications.loadMessages, hr, Bool.not_true, Bool.false_eq_true,
      if_false, if_neg (Nat.not_lt.mpr hge), if_neg (Nat.not_lt.mpr hle)]
    simp [Modifications.appendFrame, hv]

/-- Witness for C10: the Orders conjunct applied to the raw-250 frame. -/
theorem price_scaling_witness :
    ((Orders.init 0 5).loadMessages framePriceB).2.price =
      [] ++ [(get4bytes framePriceB 32 : ℚ) / 10000] :=
  price_scaling.1 (Orders.init 0 5) framePriceB (by decide) (by decide) (by decide)

/-- Modelled from the spec: `countMessages` (the Counting Scanner, declared
in getMessages.h but defined outside the given sources) streams the file
once and tallies, per possible type byte 0–255, how many frames of that
type exist, without decoding any field.  The file is a list of frames. -/
def countMessages (frames : List Buf) : Nat → Nat :=
  fun t => (frames.filter (fun f => f 0 == t)).length

/-- `MessageType::countValidMessages`: sums the count vector over the
variant's `typePositions`.  Modelled from the spec: the `typePositions`
member initializer lives in `MessageTypes.h`, which is not among the
sources; the spec makes them the variant's countable type-byte slots, so a
variant passes its own type-code bytes here. -/
def countValidMessages (typePositions : List Nat) (count : Nat → Nat) : Nat :=
  typePositions.foldl (fun total tp => total + count tp) 0

/-- Modelled from the spec: `loadToMessages` (the Buffered Loader, declared
in getMessages.h but defined outside the given sources) invokes the
decoder's `loadMessages` once per complete frame until the decoder signals
termination or the file ends. -/
def loadToMessages {σ : Type} (load : σ → Buf → Bool × σ) :
    List Buf → σ → σ
  | [], s => s
  | f :: fs, s =>
    match load s f with
    | (true, s2) => loadToMessages load fs s2
    | (false, s2) => s2

/-- The observables of one `getMessagesTemplate` session: whether the
counting pre-pass ran, the window actually passed to the Buffered Loader,
the reported message count and the populated decoder. -/
structure TemplateResult (σ : Type) where
  countingRan : Bool
  effStart : Nat
  effEnd : Nat
  nMessages : Nat
  decoder : σ
deriving DecidableEq

/-- `getMessagesTemplate`: swap an inverted window, substitute the
unspecified end (sentinel 0) by the counted number of valid messages,
compute the reported message count, and run the loader.  The decoder
variant enters through its `typePositions`, constructor and `loadMessages`. -/
def getMessagesTemplate {σ : Type} (typePositions : List Nat)
    (init : Nat → Nat → σ) (load : σ → Buf → Bool × σ) (frames : List Buf)
    (startMsgCount endMsgCount : Nat) : TemplateResult σ :=
  let p := if startMsgCount > endMsgCount then (endMsgCount, startMsgCount)
    else (startMsgCount, endMsgCount)
  if p.2 = 0 then
    let e := countValidMessages typePositions (countMessages frames)
    { countingRan := true, effStart := p.1, effEnd := e, nMessages := e - p.1,
      decoder := loadToMessages load frames (init p.1 e) }
  else
    { countingRan := false, effStart := p.1, effEnd := p.2,
      nMessages := p.2 - p.1 + 1,
      decoder := loadToMessages load frames (init p.1 p.2) }

/-- C6: a decode session with an inverted window `(hi, lo)`, `hi > lo`,
yields a result identical to the session with `(lo, hi)`. -/
theorem window_swap_equal :
    ∀ (σ : Type) (typePositions : List Nat) (init : Nat → Nat → σ)
      (load : σ → Buf → Bool × σ) (frames : List Buf) (hi lo : Nat),
      hi > lo →
      getMessagesTemplate typePositions init load frames hi lo =
        getMessagesTemplate typePositions init load frames lo hi := by
  intro σ typePositions init load frames hi lo h
  simp only [getMessagesTemplate]
  rw [if_pos h, if_neg (Nat.not_lt.mpr (Nat.le_of_lt h))]

/-- Witness for C6: the swap applied to a concrete Orders session. -/
theorem window_swap_equal_witness :
    getMessagesTemplate Orders.validTypes Orders.init Orders.loadMessages
        [frameA] 2 1 =
      getMessagesTemplate Orders.validTypes Orders.init Orders.loadMessages
        [frameA] 1 2 :=
  window_swap_equal Orders Orders.validTypes Orders.init Orders.loadMessages
    [frameA] 2 1 (by decide)

/-- C7: with `startMsgCount = s > 0` and the sentinel `endMsgCount = 0`,
the swap runs before the sentinel check, so the session decodes the fully
specified window `[0, s]` without the counting pre-pass; the pre-pass runs
exactly when both bounds are 0. -/
theorem swap_before_sentinel :
    ∀ (σ : Type) (typePositions : List Nat) (init : Nat → Nat → σ)
      (load : σ → Buf → Bool × σ) (frames : List Buf),
      (∀ s : Nat, 0 < s →
        (getMessagesTemplate typePositions init load frames s 0).countingRan = false ∧
        (getMessagesTemplate typePositions init load frames s 0).effStart = 0 ∧
        (getMessagesTemplate typePositions init load frames s 0).effEnd = s ∧
        (getMessagesTemplate typePositions init load frames s 0).decoder =
          loadToMessages load frames (init 0 s)) ∧
      (∀ a b : Nat,
        (getMessagesTemplate typePositions init load frames a b).countingRan = true ↔
          a = 0 ∧ b = 0) := by
  intro σ typePositions init load frames
  constructor
  · intro s hs
    simp only [getMessagesTemplate]
    rw [if_pos hs, if_neg (Nat.pos_iff_ne_zero.mp hs)]
    exact ⟨rfl, rfl, rfl, rfl⟩
  · intro a b
    simp only [getMessagesTemplate]
    rcases Nat.lt_or_ge b a with hab | hab
    · rw [if_pos hab, if_neg (by omega : ¬ a = 0)]
      simp only [Bool.false_eq_true, false_iff]
      omega
    · rw [if_neg (Nat.not_lt.mpr hab)]
      by_cases hb : b = 0
      · rw [if_pos hb]
        simp only [true_iff]
        omega
      · rw [if_neg hb]
        simp only [Bool.false_eq_true, false_iff]
        omega

/-- Witness for C7: a concrete session with start 3 and sentinel end 0
skips the counting pre-pass. -/
theorem swap_before_sentinel_witness :
    (getMessagesTemplate Orders.validTypes Orders.init Orders.loadMessages
      [frameA] 3 0).countingRan = false :=
  ((swap_before_sentinel Orders Orders.validTypes Orders.init Orders.loadMessages
    [frameA]).1 3 (by decide)).1

def fullFrame : Buf := fun i =>
  ([65, 0, 1, 0, 0, 0, 0, 0, 0, 0, 0, 0, 0, 0, 0, 0, 0, 0, 100, 66,
    0, 0, 1, 244, 65, 65, 80, 76, 32, 32, 32, 32, 0, 22, 227, 96]).getD i 0

example :
    ((Orders.init 0 5).loadMessages fullFrame).2.type = [65] ∧
    ((Orders.init 0 5).loadMessages fullFrame).2.locateCode = [1] ∧
    ((Orders.init 0 5).loadMessages fullFrame).2.trackingNumber = [0] ∧
    ((Orders.init 0 5).loadMessages fullFrame).2.timestamp = [0] ∧
    ((Orders.init 0 5).loadMessages fullFrame).2.orderRef = [100] ∧
    ((Orders.init 0 5).loadMessages fullFrame).2.buy = [true] ∧
    ((Orders.init 0 5).loadMessages fullFrame).2.shares = [500] ∧
    ((Orders.init 0 5).loadMessages fullFrame).2.stock = ["AAPL"] ∧
    ((Orders.init 0 5).loadMessages fullFrame).2.mpid = [""] := by decide

example : ((Orders.init 0 5).loadMessages fullFrame).2.price = [150] := by
  have h : ((Orders.init 0 5).loadMessages fullFrame).2.price =
      [(get4bytes fullFrame 32 : ℚ) / 10000] := rfl
  have hg : get4bytes fullFrame 32 = 1500000 := by decide
  rw [h, hg]; norm_num
